import Mathlib

/-!
Verification of the matching core of the JD/résumé matching backend.

Text values (conditions, ids, tokens, section names) are modelled as lists of
Unicode codepoints (`List Nat`); byte strings are lists of naturals `< 256`.
Real-valued scores are modelled exactly over `ℚ` (the Python code computes
over IEEE floats; all constants involved are small decimal literals).

Each definition is a shallow embedding of the correspondingly named Python
function of the repository, as noted in its doc comment.
-/

namespace JDMatch

/-- Codepoints of a string literal (helper for writing concrete text). -/
def cps (s : String) : List Nat := s.data.map Char.toNat

/-- ASCII lower-casing of a codepoint, modelling Python `str.lower()` on the
ASCII range (all lexicon keywords and section names are ASCII). -/
def lowerChar (c : Nat) : Nat := if 65 ≤ c ∧ c ≤ 90 then c + 32 else c

/-- `condition.lower()` on a codepoint list. -/
def asciiLower (s : List Nat) : List Nat := s.map lowerChar

/-- Whether `p` is a leading segment of `l` (helper for the substring test). -/
def prefTest : List Nat → List Nat → Bool
  | [], _ => true
  | _ :: _, [] => false
  | a :: as, b :: bs => a == b && prefTest as bs

/-- Python's substring containment `needle in hay`. -/
def subIn (needle : List Nat) : List Nat → Bool
  | [] => prefTest needle []
  | c :: rest => prefTest needle (c :: rest) || subIn needle rest

/-! ## Configuration (`app/core/config.py`) -/

/-- `Settings.SECTIONAL_WEIGHTS` (config.py lines 77-85), as the key-value
pairs of the Python dict, in insertion order. -/
def SECTIONAL_WEIGHTS : List (String × ℚ) :=
  [("required", 2/5), ("experience", 3/10), ("overall", 1/5),
   ("preferred", 2/25), ("education", 3/200), ("certification", 1/200),
   ("language", 0)]

/-- `Settings.DEFAULT_PENALTIES["experience_level_mismatch"]` (config.py). -/
def PENALTY_LEVEL_MISMATCH : ℚ := 1/4

/-- `Settings.DEFAULT_PENALTIES["experience_significantly_lacking"]`. -/
def PENALTY_SIGNIFICANTLY_LACKING : ℚ := 1/5

/-- `Settings.EXPERIENCE_PENALTY_CAP` (config.py line 114). -/
def EXPERIENCE_PENALTY_CAP : ℚ := 3/20

/-- Python dict lookup `d[k]`: `some` the value when the key is present,
`none` models the `KeyError`. -/
def dictGet (d : List (String × ℚ)) (k : String) : Option ℚ :=
  (d.find? (fun p => p.1 == k)).map (·.2)

/-! ## Dynamic thresholds (`MatchingService._get_dynamic_threshold`) -/

/-- The `tech_thresholds` dict of `_get_dynamic_threshold`
(matching_service.py lines 326-350), in source order. -/
def techThresholds : List (List Nat × ℚ) :=
  [(cps "java", 3/4), (cps "kotlin", 3/4), (cps "spring", 3/4),
   (cps "python", 31/50), (cps "fastapi", 31/50), (cps "django", 31/50),
   (cps "node.js", 7/10), (cps "express", 7/10),
   (cps "react", 3/4), (cps "next.js", 3/4), (cps "typescript", 3/4),
   (cps "vue.js", 7/10), (cps "angular", 7/10),
   (cps "flutter", 7/10),
   (cps "android", 3/4), (cps "ios", 3/4),
   (cps "mysql", 11/20), (cps "postgresql", 11/20), (cps "mongodb", 11/20),
   (cps "aws", 13/20), (cps "gcp", 13/20), (cps "azure", 13/20),
   (cps "docker", 13/20), (cps "kubernetes", 7/10),
   (cps "tensorflow", 31/50), (cps "pytorch", 31/50), (cps "opencv", 31/50),
   (cps "langchain", 31/50), (cps "langgraph", 31/50)]

/-- `MatchingService._get_dynamic_threshold` (matching_service.py 321-365):
lower-case the condition, start from the default 0.60 and take the max of the
thresholds of every tech keyword occurring as a substring. -/
def getDynamicThreshold (condition : List Nat) : ℚ :=
  let condLower := asciiLower condition
  techThresholds.foldl
    (fun acc p => if subIn p.1 condLower then max acc p.2 else acc) (3/5)

/-- The threshold the claim describes: the maximum over the thresholds of the
occurring Table-A keywords alone, with 0.60 only when no keyword occurs.
(Spec-side definition, for comparison with `getDynamicThreshold`.) -/
def claimThreshold (condition : List Nat) : ℚ :=
  let condLower := asciiLower condition
  let hits := techThresholds.filter (fun p => subIn p.1 condLower)
  match hits with
  | [] => 3/5
  | h :: t => (t.map Prod.snd).foldl max h.2

/-! ## Section scores (`MatchingService._calculate_section_score_by_sentences`) -/

/-- Per-condition entry of the `detailed_analysis` list built in
`_calculate_section_score_by_sentences` (lines 383-405): the condition text,
its best-sentence similarity as reported by `_best_sentence_match`, the
threshold used and the resulting match flag. -/
structure CondAnalysis where
  condition : List Nat
  similarity : ℚ
  thresholdUsed : ℚ
  matched : Bool
deriving Repr, DecidableEq

/-- Lines 383-410 of matching_service.py: per condition, record the best
similarity (supplied by the semantic-retrieval stage), the dynamic threshold
and the match decision. -/
def analyzeConditions (conds : List (List Nat × ℚ)) : List CondAnalysis :=
  conds.map (fun p =>
    let thr := getDynamicThreshold p.1
    { condition := p.1, similarity := p.2, thresholdUsed := thr,
      matched := thr ≤ p.2 })

/-- The per-condition score of lines 414-427: 1.0 when matched, otherwise the
required section gives `min(1, sim/0.60) * 0.5` and the other sections give
`max(0, (sim - 0.55)/(0.65 - 0.55)) * 0.5`. -/
def condScore (sect : List Nat) (d : CondAnalysis) : ℚ :=
  if d.matched then 1
  else if sect = cps "required" then min 1 (d.similarity / (3/5)) * (1/2)
  else max 0 ((d.similarity - 11/20) / (13/20 - 11/20)) * (1/2)

/-- `_calculate_section_score_by_sentences` score computation
(matching_service.py 367-430), with the best-sentence similarities of the
retrieval stage supplied per condition: empty condition list returns 0.0
(line 373), otherwise the arithmetic mean of the per-condition scores. -/
def sectionScoreBySentences (sect : List Nat)
    (conds : List (List Nat × ℚ)) : ℚ :=
  let analysis := analyzeConditions conds
  match analysis with
  | [] => 0
  | _ => (analysis.map (condScore sect)).sum / analysis.length

/-- The per-condition score exactly as claim C5 words it (spec-side
definition, for comparison with the code-side `sectionScoreBySentences`). -/
def claimCondScore (sect : List Nat) (cond : List Nat) (sim : ℚ) : ℚ :=
  if getDynamicThreshold cond ≤ sim then 1
  else if sect = cps "required" then min 1 (sim / (3/5)) * (1/2)
  else max 0 ((sim - 11/20) / (1/10)) * (1/2)

/-! ## Aggregator (`MatchingService._calculate_matching_score_sectional_sentences`) -/

/-- The seven category scores entering the aggregation (lines 196-206). -/
structure CategoryScores where
  required : ℚ
  preferred : ℚ
  experience : ℚ
  overall : ℚ
  education : ℚ
  certification : ℚ
  language : ℚ

/-- Lines 209-241: build the `category_scores` dict.  The weights of the
first four categories are looked up in `settings.SECTIONAL_WEIGHTS` under the
keys `"required_match"`, `"preferred_match"`, `"experience_match"` and
`"overall_similarity"`; a missing key is Python's `KeyError`, modelled as
`none`.  Education, certification and language weights are hard-coded 0.0. -/
def buildCategoryScores (w : List (String × ℚ)) (s : CategoryScores) :
    Option (List (String × ℚ × ℚ)) := do
  let wr ← dictGet w "required_match"
  let wp ← dictGet w "preferred_match"
  let we ← dictGet w "experience_match"
  let wo ← dictGet w "overall_similarity"
  pure [("required_match", s.required, wr),
        ("preferred_match", s.preferred, wp),
        ("experience_match", s.experience, we),
        ("overall_similarity", s.overall, wo),
        ("education", s.education, 0),
        ("certification", s.certification, 0),
        ("language", s.language, 0)]

/-- Line 244-247: `weighted_sum = Σ score · weight` over the category dict. -/
def weightedSum (cs : List (String × ℚ × ℚ)) : ℚ :=
  (cs.map (fun c => c.2.1 * c.2.2)).sum

/-- Lines 249-251: the hard gate — halve the weighted sum when the required
section score is below 0.5. -/
def applyRequiredGate (requiredScore ws : ℚ) : ℚ :=
  if requiredScore < 1/2 then ws * (1/2) else ws

/-- Lines 209-256 of `_calculate_matching_score_sectional_sentences`: build
the category dict (which raises `KeyError` under the default configuration),
sum the weighted scores, apply the hard gate and subtract the penalties. -/
def sectionalSentencesFinalScore (w : List (String × ℚ)) (s : CategoryScores)
    (penaltySum : ℚ) : Option ℚ := do
  let cs ← buildCategoryScores w s
  let ws := weightedSum cs
  let gated := applyRequiredGate s.required ws
  pure (max 0 (gated - penaltySum))

/-! ## Penalties (`app/services/ml/penalties.py`) -/

/-- The fields of `JobPosting` that the penalty engine reads. -/
structure PenaltyJob where
  experienceLevel : Option (List Nat)
  minExperienceYears : Option ℚ
  requiredConditions : List (List Nat)

/-- The fields of `Resume` that the penalty engine reads. -/
structure PenaltyResume where
  experienceYears : Option ℚ
  skills : List (List Nat)

/-- Python `x or 0` on an optional number (both `None` and `0.0` give `0`). -/
def orZero (o : Option ℚ) : ℚ := o.getD 0

/-- The `level_ranges` / `level_map` dict shared by penalties.py (line 79)
and scoring.py (line 879): `junior (0,3)`, `mid (3,7)`, `senior (7,100)`,
anything else `(0,100)`. -/
def levelRanges (lvl : List Nat) : ℚ × ℚ :=
  if lvl = cps "junior" then (0, 3)
  else if lvl = cps "mid" then (3, 7)
  else if lvl = cps "senior" then (7, 100)
  else (0, 100)

/-- `PenaltyService.detect_experience_level_mismatch` (penalties.py 63-95). -/
def detectExperienceLevelMismatch (job : PenaltyJob) (resume : PenaltyResume) :
    Bool :=
  match job.experienceLevel with
  | none => false
  | some lvl =>
    if lvl = [] then false
    else
      let cand := orZero resume.experienceYears
      let r := levelRanges (asciiLower lvl)
      decide (cand < r.1 * (1/2)) || decide (r.2 * (3/2) < cand)

/-- `PenaltyService.detect_experience_significantly_lacking`
(penalties.py 97-115). -/
def detectExperienceSignificantlyLacking (job : PenaltyJob)
    (resume : PenaltyResume) : Bool :=
  let requiredYears := orZero job.minExperienceYears
  let cand := orZero resume.experienceYears
  if requiredYears = 0 then false
  else decide (cand < requiredYears * (7/10))

/-- `PenaltyService.calculate_required_skill_missing_ratio`
(penalties.py 117-144). -/
def calculateRequiredSkillMissingRatio (job : PenaltyJob)
    (resume : PenaltyResume) : ℚ :=
  let reqs := job.requiredConditions
  if reqs = [] then 0
  else
    let skillsLower := resume.skills.map asciiLower
    let missing := reqs.countP (fun req =>
      ! skillsLower.any (fun sk =>
          subIn sk (asciiLower req) || subIn (asciiLower req) sk))
    (missing : ℚ) / reqs.length

/-- Python `round(x, 6)` (round-half-to-even differs from Mathlib's
round-half-up only at exact midpoints, which do not occur for the values the
penalty engine rounds). -/
def pyRound6 (q : ℚ) : ℚ := (round (q * 1000000) : ℤ) / 1000000

/-- The penalties dict returned by `PenaltyService.calculate_penalties`:
`none` models an absent key. -/
structure Penalties where
  experienceLevelMismatch : Option ℚ
  requiredSkillCriticalMissing : Option ℚ
  experienceSignificantlyLacking : Option ℚ
deriving Repr, DecidableEq

/-- `PenaltyService.calculate_penalties` (penalties.py 14-61): emit the three
penalties, then rescale the two experience-family ones (rounding each to six
decimals) when their sum exceeds `EXPERIENCE_PENALTY_CAP`. -/
def calculatePenalties (job : PenaltyJob) (resume : PenaltyResume) :
    Penalties :=
  let p1 := if detectExperienceLevelMismatch job resume
            then some PENALTY_LEVEL_MISMATCH else none
  let ratio := calculateRequiredSkillMissingRatio job resume
  let p2 := if (1/2 : ℚ) < ratio then some ((1/4) * ratio) else none
  let p3 := if detectExperienceSignificantlyLacking job resume
            then some PENALTY_SIGNIFICANTLY_LACKING else none
  let expSum := orZero p1 + orZero p3
  if EXPERIENCE_PENALTY_CAP < expSum ∧ 0 < expSum then
    let scale := EXPERIENCE_PENALTY_CAP / expSum
    { experienceLevelMismatch := p1.map (fun v => pyRound6 (v * scale)),
      requiredSkillCriticalMissing := p2,
      experienceSignificantlyLacking := p3.map (fun v => pyRound6 (v * scale)) }
  else
    { experienceLevelMismatch := p1,
      requiredSkillCriticalMissing := p2,
      experienceSignificantlyLacking := p3 }

/-! ## Experience scorer (`app/services/ml/scoring.py` 778-887) -/

/-- The year-score chain of `ScoringService.calculate_experience_score`
(scoring.py 802-822).  `max_years` follows Python truthiness: `None` and `0`
both skip the over-qualification branch. -/
def yearScore (minYears : ℚ) (maxYears : Option ℚ) (cand : ℚ) : ℚ :=
  if minYears = 0 then 4/5
  else if minYears ≤ cand then
    match maxYears with
    | some m => if m ≠ 0 ∧ m < cand then 7/10 else 1
    | none => 1
  else if minYears * (7/10) ≤ cand then 3/5
  else if minYears * (1/2) ≤ cand then 2/5
  else 1/5

/-- `ScoringService._compare_experience_level` (scoring.py 865-887):
candidate years must fall in `[min, max)` of the requested bucket; a missing
or empty level always matches. -/
def compareExperienceLevel (jobLevel : Option (List Nat)) (cand : ℚ) : Bool :=
  match jobLevel with
  | none => true
  | some lvl =>
    if lvl = [] then true
    else
      let r := levelRanges (asciiLower lvl)
      decide (r.1 ≤ cand ∧ cand < r.2)

/-- The overall score of `ScoringService.calculate_experience_score`
(scoring.py 795-845): `min(year*0.7 + level*0.3, 1.0)`. -/
def calculateExperienceScore (minYearsOpt maxYears : Option ℚ)
    (jobLevel : Option (List Nat)) (candYearsOpt : Option ℚ) : ℚ :=
  let requiredYears := orZero minYearsOpt
  let cand := orZero candYearsOpt
  let ys := yearScore requiredYears maxYears cand
  let ls : ℚ := if compareExperienceLevel jobLevel cand then 1 else 1/2
  min (ys * (7/10) + ls * (3/10)) 1

/-- The year-score table exactly as claim C8 words it (spec-side definition,
for comparison with the code-side `yearScore`). -/
def yearScoreClaimTable (minYears : ℚ) (maxYears : Option ℚ) (cand : ℚ) : ℚ :=
  if minYears = 0 then 4/5
  else if decide (minYears ≤ cand) &&
          (match maxYears with
           | none => true
           | some m => decide (cand ≤ m)) then 1
  else if (match maxYears with
           | none => false
           | some m => decide (m < cand)) then 7/10
  else if decide (minYears * (7/10) ≤ cand) && decide (cand < minYears) then 3/5
  else if decide (minYears * (1/2) ≤ cand) &&
          decide (cand < minYears * (7/10)) then 2/5
  else 1/5

/-- The year-score table amended to match the code: a present `max` of `0` is
treated like an absent one (Python truthiness), and the over-qualification
clause `candidate > max → 0.7` applies only when `candidate ≥ required_min`
(in the code it is nested inside that branch). -/
def yearScoreAmendedTable (minYears : ℚ) (maxYears : Option ℚ) (cand : ℚ) :
    ℚ :=
  if minYears = 0 then 4/5
  else if decide (minYears ≤ cand) &&
          (match maxYears with
           | none => true
           | some m => m == 0 || decide (cand ≤ m)) then 1
  else if decide (minYears ≤ cand) &&
          (match maxYears with
           | none => false
           | some m => m != 0 && decide (m < cand)) then 7/10
  else if decide (minYears * (7/10) ≤ cand) && decide (cand < minYears) then 3/5
  else if decide (minYears * (1/2) ≤ cand) &&
          decide (cand < minYears * (7/10)) then 2/5
  else 1/5

/-! ## Overall similarity (`MatchingService._calculate_overall_similarity`,
`EmbeddingService.cosine_similarity`) -/

/-- `np.dot` on two embedding vectors of equal length. -/
def dotQ : List ℚ → List ℚ → ℚ
  | a :: as, b :: bs => a * b + dotQ as bs
  | _, _ => 0

/-- `EmbeddingService.cosine_similarity` (embedding.py 163-185): the inner
product, clipped to `[0, 1]` by `np.clip` (the service assumes unit-norm
inputs and does not normalize). -/
def cosineSimilarity (v1 v2 : List ℚ) : ℚ := min 1 (max 0 (dotQ v1 v2))

/-- `MatchingService._calculate_overall_similarity` (matching_service.py
299-319): embed both full texts and return their `cosine_similarity`; any
failure to produce an embedding (service unavailable, etc.) is caught and
yields 0.0.  The embedding-service outcomes are supplied as `Option`s. -/
def calculateOverallSimilarity (jobEmb resumeEmb : Option (List ℚ)) : ℚ :=
  match jobEmb, resumeEmb with
  | some a, some b => cosineSimilarity a b
  | _, _ => 0

/-! ## Best sentence match (`ScoringService._best_sentence_match`) -/

/-- Sum of squares of a vector (`‖v‖²`); zero exactly when `np.linalg.norm`
is zero. -/
def normSq (v : List ℚ) : ℚ := (v.map (fun x => x * x)).sum

/-- An exact representation of the float similarity values of
`_best_sentence_match`: `⟨n, d⟩` denotes the real number `n / √d` (`d > 0`
for every value the code builds).  The code's `dot/(na*nb)` is represented
as `⟨dot a b, ‖a‖²·‖b‖²⟩`, its literals `-1.0` and `0.0` as `⟨-1, 1⟩` and
`⟨0, 1⟩`. -/
structure SimVal where
  num : ℚ
  den2 : ℚ
deriving Repr, DecidableEq

/-- Exact decision of `x > y` for `x = xn/√xd`, `y = yn/√yd` (with positive
`xd`, `yd`): compare signs, then compare squares. -/
def simGT (x y : SimVal) : Bool :=
  if 0 ≤ x.num then
    if 0 ≤ y.num then decide (y.num ^ 2 * x.den2 < x.num ^ 2 * y.den2)
    else true
  else
    if 0 ≤ y.num then false
    else decide (x.num ^ 2 * y.den2 < y.num ^ 2 * x.den2)

/-- The loop body of `_best_sentence_match` (scoring.py 689-702): skip
sentences without an embedding, compute the cosine (0.0 when either norm is
zero), and keep the strictly best similarity together with its sentence. -/
def bestMatchStep (condEmb : Option (List ℚ)) (acc : SimVal × List Nat)
    (p : List Nat × Option (List ℚ)) : SimVal × List Nat :=
  match condEmb, p.2 with
  | some b, some a =>
    let sim : SimVal :=
      if normSq a = 0 ∨ normSq b = 0 then ⟨0, 1⟩
      else ⟨dotQ a b, normSq a * normSq b⟩
    if simGT sim acc.1 then (sim, p.1) else acc
  | _, _ => acc

/-- `ScoringService._best_sentence_match` (scoring.py 679-705).  The
condition embedding is `none` when `generate_embedding` raised (line 684-685:
early return `(0.0, "")`).  Sentences are zipped with their optional
embeddings; the best similarity starts at `-1.0` with sentence `""` and is
clamped to `0.0` at the end when still negative. -/
def bestSentenceMatch (condEmb : Option (List ℚ)) (sentLines : List (List Nat))
    (sentEmbeddings : List (Option (List ℚ))) : SimVal × List Nat :=
  match condEmb with
  | none => (⟨0, 1⟩, [])
  | some b =>
    let r := (sentLines.zip sentEmbeddings).foldl (bestMatchStep (some b))
      (⟨-1, 1⟩, [])
    if r.1.num < 0 then (⟨0, 1⟩, r.2) else r

/-! ## Search (`MatchingService.search_jobs_for_resume`) -/

/-- One entry of the `results` list of `search_jobs_for_resume` (lines
131-143), reduced to the fields the ordering claim is about: the job id and
`overall_score` (the matching score rounded to one decimal of a percent). -/
structure SearchItem where
  jobId : Nat
  overallScore : ℚ
deriving Repr, DecidableEq

/-- Python `round(float(score) * 100, 1)` (line 138). -/
def roundPercent (score : ℚ) : ℚ := (round (score * 1000) : ℤ) / 10

/-- One insertion step of a stable descending sort: an element moves left
past strictly smaller scores only, so elements with equal scores keep their
original relative order — exactly Python's stable `list.sort(key=score,
reverse=True)` (line 152). -/
def insertByScoreDesc (x : SearchItem) : List SearchItem → List SearchItem
  | [] => [x]
  | y :: ys =>
    if y.overallScore ≤ x.overallScore then x :: y :: ys
    else y :: insertByScoreDesc x ys

/-- `results.sort(key=lambda x: x["overall_score"], reverse=True)`:
stable sort by score descending. -/
def sortByScoreDesc (l : List SearchItem) : List SearchItem :=
  l.foldr insertByScoreDesc []

/-- The result assembly of `search_jobs_for_resume` (matching_service.py
123-157): each job's scoring outcome is `none` when
`calculate_matching_score` raised (the `except: continue` of lines 147-149),
successful results are collected in job-enumeration order and sorted by
`overall_score` descending.  The `limit` parameter is faithfully accepted
and — as in the source — never used: no truncation happens. -/
def searchJobsPostprocess (_limit : ℤ) (perJob : List (Option SearchItem)) :
    List SearchItem :=
  sortByScoreDesc perJob.reduceOption

/-! ## Token codec (`MatchingService._generate_matching_id` /
`decode_matching_id`, matching_service.py 48-77)

The standard-library pieces the codec calls (`json.dumps`/`json.loads`,
`str.encode("utf-8")`/`bytes.decode("utf-8")`, `base64.urlsafe_b64encode`/
`urlsafe_b64decode`, `hmac`) are modelled here: JSON restricted to the
two-key payload object the codec actually produces, UTF-8 and unpadded
base64url in full, and HMAC-SHA256 as an opaque function parameter
`hmacFn : List Nat → List Nat` (the claims do not depend on its internals,
only on it being a function; the secret is folded into it). -/

/-- Lower-case hex digit of a nibble (Python `"%04x"`). -/
def hexDigit (n : Nat) : Nat := if n < 10 then 48 + n else 87 + n

/-- Value of a hex digit (json accepts both cases in `\uXXXX`). -/
def hexVal (c : Nat) : Option Nat :=
  if 48 ≤ c ∧ c ≤ 57 then some (c - 48)
  else if 97 ≤ c ∧ c ≤ 102 then some (c - 87)
  else if 65 ≤ c ∧ c ≤ 70 then some (c - 55)
  else none

/-- `json.dumps` escaping of one character (ensure_ascii=False): quote,
backslash and the short control escapes, `\u00XX` for other control
characters, everything else verbatim. -/
def jsonEscapeChar (c : Nat) : List Nat :=
  if c = 34 then [92, 34]
  else if c = 92 then [92, 92]
  else if c = 8 then [92, 98]
  else if c = 9 then [92, 116]
  else if c = 10 then [92, 110]
  else if c = 12 then [92, 102]
  else if c = 13 then [92, 114]
  else if c < 32 then [92, 117, 48, 48, hexDigit (c / 16), hexDigit (c % 16)]
  else [c]

/-- Escape a whole string. -/
def jsonEscape (s : List Nat) : List Nat := (s.map jsonEscapeChar).flatten

/-- A JSON string literal: `"` + escaped content + `"`. -/
def quoteJson (s : List Nat) : List Nat := 34 :: (jsonEscape s ++ [34])

/-- `json.dumps({"resume_id": r, "job_id": j}, separators=(",", ":"),
ensure_ascii=False)` (matching_service.py 53-54):
`\x7b"resume_id":R,"job_id":J\x7d` with string literals for both values. -/
def jsonDumpsPayload (r j : List Nat) : List Nat :=
  [123] ++ quoteJson (cps "resume_id") ++ [58] ++ quoteJson r ++ [44] ++
  quoteJson (cps "job_id") ++ [58] ++ quoteJson j ++ [125]

/-- Consume an expected literal from the front of the input. -/
def parseLiteral : List Nat → List Nat → Option (List Nat)
  | [], s => some s
  | _ :: _, [] => none
  | l :: ls, c :: cs => if l = c then parseLiteral ls cs else none

/-- Parse a JSON string body (opening quote already consumed) up to the
closing quote, unescaping; returns the content and the rest of the input. -/
def parseJString : List Nat → Option (List Nat × List Nat)
  | [] => none
  | c :: rest =>
    if c = 34 then some ([], rest)
    else if c = 92 then
      match rest with
      | [] => none
      | e :: rest2 =>
        if e = 34 then (parseJString rest2).map (fun p => (34 :: p.1, p.2))
        else if e = 92 then (parseJString rest2).map (fun p => (92 :: p.1, p.2))
        else if e = 98 then (parseJString rest2).map (fun p => (8 :: p.1, p.2))
        else if e = 116 then (parseJString rest2).map (fun p => (9 :: p.1, p.2))
        else if e = 110 then (parseJString rest2).map (fun p => (10 :: p.1, p.2))
        else if e = 102 then (parseJString rest2).map (fun p => (12 :: p.1, p.2))
        else if e = 114 then (parseJString rest2).map (fun p => (13 :: p.1, p.2))
        else if e = 117 then
          match rest2 with
          | h1 :: h2 :: h3 :: h4 :: rest3 =>
            match hexVal h1, hexVal h2, hexVal h3, hexVal h4 with
            | some v1, some v2, some v3, some v4 =>
              (parseJString rest3).map
                (fun p => ((v1 * 4096 + v2 * 256 + v3 * 16 + v4) :: p.1, p.2))
            | _, _, _, _ => none
          | _ => none
        else none
    else (parseJString rest).map (fun p => (c :: p.1, p.2))

/-- `json.loads` restricted to the exact payload shape the codec emits
(object with keys `resume_id`, `job_id` in that order, string values, no
whitespace), followed by `payload.get(...)` for both ids
(matching_service.py 76-77). -/
def jsonLoadsPayload (s : List Nat) : Option (List Nat × List Nat) := do
  let s1 ← parseLiteral ([123, 34] ++ cps "resume_id" ++ [34, 58, 34]) s
  let (r, s2) ← parseJString s1
  let s3 ← parseLiteral ([44, 34] ++ cps "job_id" ++ [34, 58, 34]) s2
  let (j, s4) ← parseJString s3
  let s5 ← parseLiteral [125] s4
  if s5 = [] then some (r, j) else none

/-- UTF-8 encoding of one codepoint. -/
def utf8EncodeChar (c : Nat) : List Nat :=
  if c < 128 then [c]
  else if c < 2048 then [192 + c / 64, 128 + c % 64]
  else if c < 65536 then [224 + c / 4096, 128 + c / 64 % 64, 128 + c % 64]
  else [240 + c / 262144, 128 + c / 4096 % 64, 128 + c / 64 % 64, 128 + c % 64]

/-- `str.encode("utf-8")`. -/
def utf8Encode (s : List Nat) : List Nat := (s.map utf8EncodeChar).flatten

/-- A UTF-8 continuation byte. -/
def contByte (b : Nat) : Bool := decide (128 ≤ b ∧ b < 192)

/-- Decode one UTF-8 codepoint from a lead byte and the following bytes:
returns the codepoint and the number of continuation bytes it consumed
(`none` on a malformed sequence). -/
def utf8DecodeOne (b : Nat) (rest : List Nat) : Option (Nat × Nat) :=
  if b < 128 then some (b, 0)
  else if b < 192 then none
  else if b < 224 then
    match rest with
    | b1 :: _ =>
      if contByte b1 then some ((b - 192) * 64 + (b1 - 128), 1) else none
    | [] => none
  else if b < 240 then
    match rest with
    | b1 :: b2 :: _ =>
      if contByte b1 && contByte b2 then
        some ((b - 224) * 4096 + (b1 - 128) * 64 + (b2 - 128), 2)
      else none
    | _ => none
  else if b < 248 then
    match rest with
    | b1 :: b2 :: b3 :: _ =>
      if contByte b1 && contByte b2 && contByte b3 then
        some ((b - 240) * 262144 + (b1 - 128) * 4096 + (b2 - 128) * 64 +
          (b3 - 128), 3)
      else none
    | _ => none
  else none

/-- `bytes.decode("utf-8")`: `none` models `UnicodeDecodeError`.  (Validation
is modelled to the extent the codec exercises it: the signature check
precedes payload decoding, so only authentic encoder output reaches it.) -/
def utf8Decode : List Nat → Option (List Nat)
  | [] => some []
  | b :: rest =>
    match utf8DecodeOne b rest with
    | some (c, k) => (utf8Decode (rest.drop k)).map (c :: ·)
    | none => none
termination_by l => l.length
decreasing_by
  simp only [List.length_cons, List.length_drop]
  omega

/-- The base64url alphabet (`A-Z a-z 0-9 - _`), as a total function of the
6-bit value. -/
def b64c (n : Nat) : Nat :=
  let i := n % 64
  if i < 26 then 65 + i
  else if i < 52 then 97 + (i - 26)
  else if i < 62 then 48 + (i - 52)
  else if i = 62 then 45
  else 95

/-- Value of a base64url alphabet character. -/
def b64v (c : Nat) : Option Nat :=
  if 65 ≤ c ∧ c ≤ 90 then some (c - 65)
  else if 97 ≤ c ∧ c ≤ 122 then some (c - 97 + 26)
  else if 48 ≤ c ∧ c ≤ 57 then some (c - 48 + 52)
  else if c = 45 then some 62
  else if c = 95 then some 63
  else none

/-- `base64.urlsafe_b64encode(x).rstrip(b"=")`: unpadded base64url. -/
def b64e : List Nat → List Nat
  | [] => []
  | [a] => [b64c (a / 4), b64c (a % 4 * 16)]
  | [a, b] => [b64c (a / 4), b64c (a % 4 * 16 + b / 16), b64c (b % 16 * 4)]
  | a :: b :: c :: rest =>
    b64c (a / 4) :: b64c (a % 4 * 16 + b / 16) :: b64c (b % 16 * 4 + c / 64) ::
    b64c (c % 64) :: b64e rest

/-- `base64.urlsafe_b64decode(x + pad)` where `pad = "=" * (-len(x) % 4)`
(matching_service.py 74-75): `none` models `binascii.Error` (length ≡ 1 mod
4, i.e. invalid padding) and invalid alphabet characters. -/
def b64d : List Nat → Option (List Nat)
  | [] => some []
  | [c1, c2] => do
    let v1 ← b64v c1
    let v2 ← b64v c2
    pure [v1 * 4 + v2 / 16]
  | [c1, c2, c3] => do
    let v1 ← b64v c1
    let v2 ← b64v c2
    let v3 ← b64v c3
    pure [v1 * 4 + v2 / 16, v2 % 16 * 16 + v3 / 4]
  | c1 :: c2 :: c3 :: c4 :: rest => do
    let v1 ← b64v c1
    let v2 ← b64v c2
    let v3 ← b64v c3
    let v4 ← b64v c4
    let tail ← b64d rest
    pure ((v1 * 4 + v2 / 16) :: (v2 % 16 * 16 + v3 / 4) :: (v3 % 4 * 64 + v4) :: tail)
  | [_] => none

/-- `token.split(".")` on codepoint lists (dot = 46). -/
def splitDot (l : List Nat) : List (List Nat) :=
  l.foldr
    (fun c acc =>
      if c = 46 then [] :: acc
      else
        match acc with
        | h :: t => (c :: h) :: t
        | [] => [[c]])
    [[]]

/-- The codepoints of `"v1."`. -/
def v1Head : List Nat := cps "v1."

/-- The base64url payload part of a token for the pair `(r, j)`. -/
def payloadB64Part (r j : List Nat) : List Nat :=
  b64e (utf8Encode (jsonDumpsPayload r j))

/-- The base64url signature part of a token for the pair `(r, j)`. -/
def sigPart (hmacFn : List Nat → List Nat) (r j : List Nat) : List Nat :=
  b64e (hmacFn (v1Head ++ payloadB64Part r j))

/-- `MatchingService._generate_matching_id` (matching_service.py 48-59):
`"v1." + b64url(payload) + "." + b64url(hmac(secret, "v1." + b64url(payload)))`. -/
def generateMatchingId (hmacFn : List Nat → List Nat) (resumeId jobId : List Nat) :
    List Nat :=
  v1Head ++ payloadB64Part resumeId jobId ++ [46] ++ sigPart hmacFn resumeId jobId

/-- `MatchingService.decode_matching_id` (matching_service.py 61-77): split
on `.`, require exactly three parts with version `"v1"`, recompute and
compare the signature, then base64-decode, UTF-8-decode and JSON-parse the
payload; every failure (`ValueError` etc.) is `none`. -/
def decodeMatchingId (hmacFn : List Nat → List Nat) (token : List Nat) :
    Option (List Nat × List Nat) :=
  match splitDot token with
  | [p0, b64, sig] =>
    if p0 ≠ cps "v1" then none
    else
      let expected := b64e (hmacFn (v1Head ++ b64))
      if expected ≠ sig then none
      else do
        let payloadBytes ← b64d b64
        let payloadStr ← utf8Decode payloadBytes
        jsonLoadsPayload payloadStr
  | _ => none

/-! ## Lemmas about the dynamic threshold -/

/-- Folding the thresholded max over the keyword list equals folding plain
max over the thresholds of the matching entries. -/
lemma foldl_threshold_filter (cl : List Nat) (L : List (List Nat × ℚ)) (a : ℚ) :
    L.foldl (fun acc p => if subIn p.1 cl then max acc p.2 else acc) a =
      ((L.filter (fun p => subIn p.1 cl)).map Prod.snd).foldl max a := by
  induction L generalizing a with
  | nil => simp
  | cons h t ih =>
    by_cases hh : subIn h.1 cl <;> simp [List.filter_cons, hh, ih]

/-- `foldl max` with a lowered start factors out as an outer `max`. -/
lemma foldl_max_cons (a b : ℚ) (l : List ℚ) :
    l.foldl max (max a b) = max a (l.foldl max b) := by
  induction l generalizing b with
  | nil => simp
  | cons c t ih => simp only [List.foldl, max_assoc, ih]

/-! ## Claim theorems -/

/-- C2 (code evaluation): the active aggregator looks its weights up under
the keys `required_match`/`preferred_match`/`experience_match`/
`overall_similarity`, but `SECTIONAL_WEIGHTS` stores them under
`required`/`preferred`/`experience`/`overall` — so the pipeline of
`_calculate_matching_score_sectional_sentences` raises `KeyError` for every
input and never produces the claimed weighted sum. -/
theorem sectional_weights_key_error (s : CategoryScores) (penaltySum : ℚ) :
    sectionalSentencesFinalScore SECTIONAL_WEIGHTS s penaltySum = none ∧
    dictGet SECTIONAL_WEIGHTS "required_match" = none ∧
    dictGet SECTIONAL_WEIGHTS "required" = some (2/5) := by
  refine ⟨rfl, rfl, rfl⟩

/-- C3 (counterexample): a job whose required-section sentence list is empty
gets required score 0.0 — not the neutral 0.5 the claim states — and with
required score 0.0 the hard gate of line 250 *is* triggered. -/
theorem empty_required_counterexample :
    sectionScoreBySentences (cps "required") [] = 0 ∧
    ¬ sectionScoreBySentences (cps "required") [] = 1/2 ∧
    applyRequiredGate (sectionScoreBySentences (cps "required") []) 1 = 1/2 := by
  refine ⟨rfl, by norm_num [sectionScoreBySentences, analyzeConditions],
    by norm_num [applyRequiredGate, sectionScoreBySentences, analyzeConditions]⟩

/-- C3 (amended): for every job with an empty required-condition list the
`required_match` score equals 0.0, and the hard gate multiplies every
weighted sum by 0.5. -/
theorem empty_required_zero_and_gate (ws : ℚ) :
    sectionScoreBySentences (cps "required") [] = 0 ∧
    applyRequiredGate (sectionScoreBySentences (cps "required") []) ws =
      ws * (1/2) := by
  constructor
  · rfl
  · show applyRequiredGate 0 ws = ws * (1/2)
    unfold applyRequiredGate
    rw [if_pos (by norm_num)]

/-- C6 (counterexample): a condition consisting of the single keyword
`mysql` gets threshold 0.60 from the code (the running max starts at the
default 0.60), while the claim's "maximum over the occurring keywords'
thresholds" is 0.55. -/
theorem dynamic_threshold_mysql_counterexample :
    getDynamicThreshold (cps "mysql") = 3/5 ∧
    claimThreshold (cps "mysql") = 11/20 ∧
    ¬ getDynamicThreshold (cps "mysql") = claimThreshold (cps "mysql") := by
  have hcode : getDynamicThreshold (cps "mysql") = 3/5 := by
    unfold getDynamicThreshold
    rw [foldl_threshold_filter,
      (by rfl : techThresholds.filter
        (fun p => subIn p.1 (asciiLower (cps "mysql"))) = [(cps "mysql", 11/20)])]
    norm_num
  have hclaim : claimThreshold (cps "mysql") = 11/20 := by rfl
  refine ⟨hcode, hclaim, by rw [hcode, hclaim]; norm_num⟩

/-- C6 (amended): for every condition the dynamic threshold equals the
maximum of the default 0.60 and the claimed keyword maximum — i.e. the
Table-A maximum floored at the default, so the 0.55 database thresholds
never take effect. -/
theorem dynamic_threshold_default_floor (condition : List Nat) :
    getDynamicThreshold condition = max (3/5) (claimThreshold condition) := by
  simp only [getDynamicThreshold, claimThreshold]
  rw [foldl_threshold_filter]
  cases hfil : techThresholds.filter
      (fun p => subIn p.1 (asciiLower condition)) with
  | nil => simp
  | cons h t => simp only [List.map_cons, List.foldl_cons, foldl_max_cons]

/-- C7 (code evaluation at the failing input): three jobs scored
(80.0, 90.0, 80.0 percent, enumerated as job ids 3, 1, 2) with `limit = 2`:
the returned list has 3 items (`limit` is never applied) and the two jobs
tied at 80.0 stay in enumeration order (job 3 before job 2), not job-id
order. -/
theorem search_ignores_limit_and_tiebreak :
    searchJobsPostprocess 2
        [some ⟨3, 80⟩, some ⟨1, 90⟩, some ⟨2, 80⟩] =
      [(⟨1, 90⟩ : SearchItem), ⟨3, 80⟩, ⟨2, 80⟩] ∧
    (searchJobsPostprocess 2
        [some ⟨3, 80⟩, some ⟨1, 90⟩, some ⟨2, 80⟩]).length = 3 := by
  refine ⟨by decide, by decide⟩

/-- C9 (counterexample): when either full-text embedding cannot be produced
the active pipeline's `_calculate_overall_similarity` returns 0.0, not the
0.5 the claim states. -/
theorem overall_similarity_fallback_counterexample :
    calculateOverallSimilarity none none = 0 ∧
    ¬ calculateOverallSimilarity none none = 1/2 := by
  refine ⟨rfl, by norm_num [calculateOverallSimilarity]⟩

/-- C9 (amended): the overall-similarity category score equals the inner
product of the two full-text embeddings clipped to `[0,1]` (cosine for
unit-norm inputs), and equals 0.0 whenever either embedding cannot be
computed. -/
theorem overall_similarity_clipped_dot (a b : List ℚ) (oe : Option (List ℚ)) :
    calculateOverallSimilarity (some a) (some b) = min 1 (max 0 (dotQ a b)) ∧
    calculateOverallSimilarity none oe = 0 ∧
    calculateOverallSimilarity oe none = 0 := by
  refine ⟨rfl, rfl, ?_⟩
  cases oe <;> rfl

/-! ## C4 — penalty cap -/

/-- C4: in the dict returned by `calculate_penalties` the two
experience-family penalties sum to at most `EXPERIENCE_PENALTY_CAP`; when
their pre-cap sum exceeds the cap both are rescaled by the factor
`cap / pre_sum` (each rounded to six decimals) and the rescaled sum equals
the cap exactly; the `required_skill_critical_missing` penalty is the same
`0.25 · ratio` value regardless of the rescaling. -/
theorem penalty_cap_and_rescale (job : PenaltyJob) (resume : PenaltyResume) :
    orZero (calculatePenalties job resume).experienceLevelMismatch +
        orZero (calculatePenalties job resume).experienceSignificantlyLacking ≤
      EXPERIENCE_PENALTY_CAP ∧
    (EXPERIENCE_PENALTY_CAP <
        (if detectExperienceLevelMismatch job resume
          then PENALTY_LEVEL_MISMATCH else 0) +
        (if detectExperienceSignificantlyLacking job resume
          then PENALTY_SIGNIFICANTLY_LACKING else 0) →
      orZero (calculatePenalties job resume).experienceLevelMismatch +
          orZero (calculatePenalties job resume).experienceSignificantlyLacking =
        EXPERIENCE_PENALTY_CAP ∧
      (calculatePenalties job resume).experienceLevelMismatch =
        (if detectExperienceLevelMismatch job resume
          then some (pyRound6 (PENALTY_LEVEL_MISMATCH * (EXPERIENCE_PENALTY_CAP /
            ((if detectExperienceLevelMismatch job resume
               then PENALTY_LEVEL_MISMATCH else 0) +
             (if detectExperienceSignificantlyLacking job resume
               then PENALTY_SIGNIFICANTLY_LACKING else 0)))))
          else none) ∧
      (calculatePenalties job resume).experienceSignificantlyLacking =
        (if detectExperienceSignificantlyLacking job resume
          then some (pyRound6 (PENALTY_SIGNIFICANTLY_LACKING *
            (EXPERIENCE_PENALTY_CAP /
            ((if detectExperienceLevelMismatch job resume
               then PENALTY_LEVEL_MISMATCH else 0) +
             (if detectExperienceSignificantlyLacking job resume
               then PENALTY_SIGNIFICANTLY_LACKING else 0)))))
          else none)) ∧
    (calculatePenalties job resume).requiredSkillCriticalMissing =
      (if (1/2 : ℚ) < calculateRequiredSkillMissingRatio job resume
        then some ((1/4) * calculateRequiredSkillMissingRatio job resume)
        else none) := by
  by_cases h1 : detectExperienceLevelMismatch job resume <;>
    by_cases h3 : detectExperienceSignificantlyLacking job resume <;>
      norm_num [calculatePenalties, h1, h3, orZero, PENALTY_LEVEL_MISMATCH,
        PENALTY_SIGNIFICANTLY_LACKING, EXPERIENCE_PENALTY_CAP, pyRound6,
        round_eq]

/-- Witness for C4 at a concrete over- and under-qualified pair (junior
posting demanding 20 years, candidate with 8): both experience penalties
fire (pre-cap sum 0.45) and the returned dict sums them to exactly the cap. -/
theorem penalty_cap_and_rescale_witness :
    orZero (calculatePenalties ⟨some (cps "junior"), some 20, []⟩
        ⟨some 8, []⟩).experienceLevelMismatch +
      orZero (calculatePenalties ⟨some (cps "junior"), some 20, []⟩
        ⟨some 8, []⟩).experienceSignificantlyLacking =
      EXPERIENCE_PENALTY_CAP := by
  have hd1 : detectExperienceLevelMismatch
      ⟨some (cps "junior"), some 20, []⟩ ⟨some 8, []⟩ = true := by
    norm_num [detectExperienceLevelMismatch, levelRanges, orZero,
      show asciiLower (cps "junior") = cps "junior" from by decide,
      show ¬ cps "junior" = ([] : List Nat) from by decide]
  have hd3 : detectExperienceSignificantlyLacking
      ⟨some (cps "junior"), some 20, []⟩ ⟨some 8, []⟩ = true := by
    norm_num [detectExperienceSignificantlyLacking, orZero]
  exact (penalty_cap_and_rescale ⟨some (cps "junior"), some 20, []⟩
    ⟨some 8, []⟩).2.1 (by
      rw [hd1, hd3]
      norm_num [PENALTY_LEVEL_MISMATCH, PENALTY_SIGNIFICANTLY_LACKING,
        EXPERIENCE_PENALTY_CAP]) |>.1

/-! ## C8 — experience scorer -/

/-- The code's year-score chain coincides with the amended spec table
(`max` of `0` treated as absent; over-qualification clause nested under
`candidate ≥ required_min`). -/
lemma yearScore_eq_amendedTable (minY : ℚ) (maxY : Option ℚ) (cand : ℚ) :
    yearScore minY maxY cand = yearScoreAmendedTable minY maxY cand := by
  unfold yearScore yearScoreAmendedTable
  by_cases h0 : minY = 0
  · simp [h0]
  · by_cases hle : minY ≤ cand
    · cases maxY with
      | none => simp [h0, hle]
      | some m =>
        by_cases hm0 : m = 0
        · simp [h0, hle, hm0]
        · by_cases hmlt : m < cand
          · simp [h0, hle, hm0, hmlt, not_le.mpr hmlt]
          · simp [h0, hle, hm0, hmlt, le_of_not_lt hmlt]
    · have hcl : cand < minY := not_le.mp hle
      have hbody : (if minY * (7/10) ≤ cand then (3:ℚ)/5
            else if minY * (1/2) ≤ cand then 2/5 else 1/5) =
          (if minY * (7/10) ≤ cand then (3:ℚ)/5
            else if minY * (1/2) ≤ cand ∧ cand < minY * (7/10) then 2/5
            else 1/5) := by
        by_cases h7 : minY * (7/10) ≤ cand
        · simp [h7]
        · simp [h7, not_le.mp h7]
      cases maxY with
      | none => simpa [h0, hle, hcl] using hbody
      | some m => simpa [h0, hle, hcl] using hbody

/-- The year score always lies in `[1/5, 1]`. -/
lemma yearScore_bounds (minY : ℚ) (maxY : Option ℚ) (cand : ℚ) :
    1/5 ≤ yearScore minY maxY cand ∧ yearScore minY maxY cand ≤ 1 := by
  unfold yearScore
  cases maxY <;> dsimp only <;> split_ifs <;> norm_num

/-- C8 (counterexample): with `required_min = 2`, a present `max_years = 0`
and `candidate = 5` the code returns year score 1.0 (Python truthiness makes
`max_years = 0` skip the over-qualification branch), while the claim's table
— `candidate > max → 0.7` — gives 0.7. -/
theorem year_score_zero_max_counterexample :
    yearScore 2 (some 0) 5 = 1 ∧
    yearScoreClaimTable 2 (some 0) 5 = 7/10 ∧
    ¬ yearScore 2 (some 0) 5 = yearScoreClaimTable 2 (some 0) 5 := by
  refine ⟨?_, ?_, ?_⟩ <;> norm_num [yearScore, yearScoreClaimTable]

/-- C8 (amended): the year score follows the claim's table with `max = 0`
treated as absent and the `candidate > max` clause nested under
`candidate ≥ required_min`; the combined score is
`0.7·year + 0.3·level` clamped to `[0,1]`; a candidate with exactly the
required minimum (and a consistent max) scores year 1.0; and 3.0 years
falls in the `mid` bucket, not `junior`. -/
theorem experience_score_table (minYearsOpt maxYears : Option ℚ)
    (jobLevel : Option (List Nat)) (candOpt : Option ℚ) :
    yearScore (orZero minYearsOpt) maxYears (orZero candOpt) =
      yearScoreAmendedTable (orZero minYearsOpt) maxYears (orZero candOpt) ∧
    calculateExperienceScore minYearsOpt maxYears jobLevel candOpt =
      max 0 (min 1
        (yearScore (orZero minYearsOpt) maxYears (orZero candOpt) * (7/10) +
         (if compareExperienceLevel jobLevel (orZero candOpt) then (1:ℚ)
          else 1/2) * (3/10))) ∧
    (¬ orZero minYearsOpt = 0 → orZero candOpt = orZero minYearsOpt →
      (match maxYears with
       | none => True
       | some m => m = 0 ∨ orZero candOpt ≤ m) →
      yearScore (orZero minYearsOpt) maxYears (orZero candOpt) = 1) ∧
    compareExperienceLevel (some (cps "mid")) 3 = true ∧
    compareExperienceLevel (some (cps "junior")) 3 = false := by
  refine ⟨yearScore_eq_amendedTable _ _ _, ?_, ?_, ?_, ?_⟩
  · have hy := yearScore_bounds (orZero minYearsOpt) maxYears (orZero candOpt)
    unfold calculateExperienceScore
    rw [min_comm]
    rw [max_eq_right]
    rcases hy with ⟨hy1, -⟩
    refine le_min (by norm_num) ?_
    split_ifs <;> linarith
  · intro hne heq hmax
    unfold yearScore
    rw [if_neg hne, if_pos (le_of_eq heq.symm)]
    cases maxYears with
    | none => rfl
    | some m =>
      show (if m ≠ 0 ∧ m < orZero candOpt then (7:ℚ)/10 else 1) = 1
      rcases hmax with hm0 | hcle
      · rw [if_neg]
        rintro ⟨hm, -⟩
        exact hm hm0
      · rw [if_neg]
        rintro ⟨-, hlt⟩
        exact absurd hcle (not_le.mpr hlt)
  · norm_num [compareExperienceLevel, levelRanges,
      show asciiLower (cps "mid") = cps "mid" from by decide,
      show ¬ cps "mid" = cps "junior" from by decide,
      show ¬ cps "mid" = ([] : List Nat) from by decide]
  · norm_num [compareExperienceLevel, levelRanges,
      show asciiLower (cps "junior") = cps "junior" from by decide,
      show ¬ cps "junior" = ([] : List Nat) from by decide]

/-- Witness for C8: a posting requiring exactly 3 years (max 5) and a
candidate with exactly 3 years gets year score 1.0. -/
theorem experience_score_table_witness :
    yearScore (orZero (some 3)) (some 5) (orZero (some 3)) = 1 ∧
    compareExperienceLevel (some (cps "mid")) 3 = true := by
  have h := experience_score_table (some 3) (some 5) (some (cps "mid")) (some 3)
  exact ⟨h.2.2.1 (by norm_num [orZero]) (by norm_num [orZero])
    (by norm_num [orZero]), h.2.2.2.1⟩

/-! ## C5 — section score as a mean -/

/-- Each per-condition score computed by the code equals the claim's
per-condition formula. -/
lemma condScore_analyze_eq_claim (sect : List Nat) (p : List Nat × ℚ) :
    condScore sect
      { condition := p.1, similarity := p.2,
        thresholdUsed := getDynamicThreshold p.1,
        matched := getDynamicThreshold p.1 ≤ p.2 } =
      claimCondScore sect p.1 p.2 := by
  unfold condScore claimCondScore
  have harith : ((p.2 - 11/20) / (13/20 - 11/20) : ℚ) =
      (p.2 - 11/20) / (1/10) := by norm_num
  by_cases hm : getDynamicThreshold p.1 ≤ p.2 <;>
    by_cases hs : sect = cps "required" <;>
      simp [hm, hs, harith]

/-- C5: for a non-empty condition list the section score is the arithmetic
mean of the claim's per-condition scores (1.0 on match, the required-section
proportional credit `min(1, sim/0.60)·0.5`, and the
`max(0, (sim−0.55)/0.10)·0.5` credit for the other sections). -/
theorem section_score_is_mean (sect : List Nat) (conds : List (List Nat × ℚ))
    (h : ¬ conds = []) :
    sectionScoreBySentences sect conds =
      (conds.map (fun p => claimCondScore sect p.1 p.2)).sum /
        conds.length := by
  have hmap : ∀ l : List (List Nat × ℚ),
      (analyzeConditions l).map (condScore sect) =
        l.map (fun p => claimCondScore sect p.1 p.2) := by
    intro l
    unfold analyzeConditions
    rw [List.map_map]
    exact List.map_congr_left (fun p _ => condScore_analyze_eq_claim sect p)
  cases conds with
  | nil => exact absurd rfl h
  | cons c cs =>
    have hred : sectionScoreBySentences sect (c :: cs) =
        ((analyzeConditions (c :: cs)).map (condScore sect)).sum /
          ((analyzeConditions (c :: cs)).length : ℚ) := rfl
    rw [hred, hmap]
    simp [analyzeConditions]

/-- Witness for C5 at a one-condition list. -/
theorem section_score_is_mean_witness :
    sectionScoreBySentences (cps "preferred") [(cps "python", 3/5)] =
      ([(cps "python", (3/5 : ℚ))].map
        (fun p => claimCondScore (cps "preferred") p.1 p.2)).sum /
        ([(cps "python", (3/5 : ℚ))].length) :=
  section_score_is_mean (cps "preferred") [(cps "python", 3/5)] (by simp)

/-! ## C10 — best sentence match safety -/

/-- Sentences whose embedding is `None` are skipped by the loop. -/
lemma foldl_bestMatchStep_all_none (b : List ℚ) :
    ∀ (lines : List (List Nat)) (embs : List (Option (List ℚ)))
      (acc : SimVal × List Nat),
      (∀ e ∈ embs, e = none) →
      (lines.zip embs).foldl (bestMatchStep (some b)) acc = acc := by
  intro lines
  induction lines with
  | nil => intro embs acc _; simp
  | cons l ls ih =>
    intro embs acc hnone
    cases embs with
    | nil => simp
    | cons e es =>
      have he : e = none := hnone e (by simp)
      subst he
      simp only [List.zip_cons_cons, List.foldl_cons]
      exact ih es acc (fun x hx => hnone x (by simp [hx]))

/-- C10 (counterexample): a condition embedding `[1,0]` against the single
sentence `"hello"` embedded as `[-1,1]` has best cosine `-1/√2 < 0`; the
code clamps the similarity to 0.0 but returns the *non-empty* sentence
`"hello"`, not the empty string the claim states. -/
theorem best_sentence_negative_counterexample :
    bestSentenceMatch (some [1, 0]) [cps "hello"] [some [-1, 1]] =
      (⟨0, 1⟩, cps "hello") ∧
    ¬ cps "hello" = [] := by
  constructor
  · norm_num [bestSentenceMatch, bestMatchStep, simGT, normSq, dotQ]
  · decide

/-- Unfolding `bestSentenceMatch` on a present condition embedding. -/
lemma bestSentenceMatch_some_eq (b : List ℚ) (lines : List (List Nat))
    (embs : List (Option (List ℚ))) :
    bestSentenceMatch (some b) lines embs =
      (if ((lines.zip embs).foldl (bestMatchStep (some b))
            (⟨-1, 1⟩, [])).1.num < 0
       then ((⟨0, 1⟩ : SimVal),
         ((lines.zip embs).foldl (bestMatchStep (some b)) (⟨-1, 1⟩, [])).2)
       else (lines.zip embs).foldl (bestMatchStep (some b)) (⟨-1, 1⟩, [])) :=
  rfl

/-- C10 (amended): `_best_sentence_match` never returns a negative
similarity; a failed condition embedding returns `(0.0, "")`; and when no
sentence has an embedding (in particular for the empty sentence list) it
returns `(0.0, "")`.  (When the best cosine is negative the similarity is
clamped to 0.0 but the best-matching sentence is kept.) -/
theorem best_sentence_match_safe (condEmb : Option (List ℚ))
    (sentLines : List (List Nat)) (sentEmbeddings : List (Option (List ℚ))) :
    0 ≤ (bestSentenceMatch condEmb sentLines sentEmbeddings).1.num ∧
    bestSentenceMatch none sentLines sentEmbeddings = (⟨0, 1⟩, []) ∧
    ((∀ e ∈ sentEmbeddings, e = none) →
      bestSentenceMatch condEmb sentLines sentEmbeddings = (⟨0, 1⟩, [])) := by
  refine ⟨?_, rfl, ?_⟩
  · cases condEmb with
    | none => norm_num [bestSentenceMatch]
    | some b =>
      rw [bestSentenceMatch_some_eq]
      split_ifs with hr
      · norm_num
      · exact le_of_not_lt hr
  · intro hnone
    cases condEmb with
    | none => rfl
    | some b =>
      rw [bestSentenceMatch_some_eq,
        foldl_bestMatchStep_all_none b sentLines sentEmbeddings
          (⟨-1, 1⟩, []) hnone]
      norm_num

/-- Witness for C10: one sentence, no embedding. -/
theorem best_sentence_match_safe_witness :
    bestSentenceMatch (some [1]) [cps "hello"] [none] = (⟨0, 1⟩, []) :=
  (best_sentence_match_safe (some [1]) [cps "hello"] [none]).2.2
    (by intro e he; simpa using he)

/-! ## C1 — codec lemmas -/

/-- Consuming an expected literal from its own prefix succeeds. -/
lemma parseLiteral_append (l s : List Nat) : parseLiteral l (l ++ s) = some s := by
  induction l with
  | nil => rfl
  | cons c cs ih => simp [parseLiteral, ih]

/-- `hexVal` inverts `hexDigit` on nibbles. -/
lemma hexVal_hexDigit (n : Nat) (h : n < 16) : hexVal (hexDigit n) = some n := by
  have hall : ∀ i : Fin 16, hexVal (hexDigit i.val) = some i.val := by decide
  exact hall ⟨n, h⟩

/-- Parsing one escaped character of a JSON string. -/
lemma parseJString_escapeChar (c : Nat) (rest : List Nat) :
    parseJString (jsonEscapeChar c ++ rest) =
      (parseJString rest).map (fun p => (c :: p.1, p.2)) := by
  unfold jsonEscapeChar
  split_ifs with h34 h92 h8 h9 h10 h12 h13 hctl
  · subst h34; rw [parseJString.eq_def]; simp
  · subst h92; rw [parseJString.eq_def]; simp
  · subst h8; rw [parseJString.eq_def]; simp
  · subst h9; rw [parseJString.eq_def]; simp
  · subst h10; rw [parseJString.eq_def]; simp
  · subst h12; rw [parseJString.eq_def]; simp
  · subst h13; rw [parseJString.eq_def]; simp
  · have hd1 : c / 16 < 16 := by omega
    have hd2 : c % 16 < 16 := by omega
    rw [parseJString.eq_def]
    simp only [List.cons_append, List.nil_append,
      hexVal_hexDigit _ hd1, hexVal_hexDigit _ hd2,
      show hexVal 48 = some 0 from rfl]
    norm_num
    rw [show c / 16 * 16 + c % 16 = c from by omega]
  · rw [parseJString.eq_def]
    simp [h34, h92]

/-- Parsing an escaped JSON string up to its closing quote recovers it. -/
lemma parseJString_escape (x t : List Nat) :
    parseJString (jsonEscape x ++ 34 :: t) = some (x, t) := by
  induction x with
  | nil =>
    show parseJString (jsonEscape [] ++ 34 :: t) = some ([], t)
    rw [show jsonEscape [] = [] from rfl, List.nil_append, parseJString.eq_def]
    simp
  | cons c cs ih =>
    have hx : jsonEscape (c :: cs) = jsonEscapeChar c ++ jsonEscape cs := by
      simp [jsonEscape]
    rw [hx, List.append_assoc, parseJString_escapeChar, ih]
    rfl

/-- UTF-8 decoding undoes the encoding of one codepoint. -/
lemma utf8Decode_encodeChar (c : Nat) (h : c < 1114112) (t : List Nat) :
    utf8Decode (utf8EncodeChar c ++ t) = (utf8Decode t).map (c :: ·) := by
  unfold utf8EncodeChar
  split_ifs with h1 h2 h3
  · rw [List.cons_append, List.nil_append, utf8Decode.eq_def]
    simp [utf8DecodeOne, h1]
  · have e1 : ¬ (192 + c / 64 < 128) := by omega
    have e2 : ¬ (192 + c / 64 < 192) := by omega
    have e3 : 192 + c / 64 < 224 := by omega
    have e4 : contByte (128 + c % 64) = true := by
      simp only [contByte, decide_eq_true_eq]; omega
    have e5 : (192 + c / 64 - 192) * 64 + (128 + c % 64 - 128) = c := by omega
    simp only [List.cons_append, List.nil_append]
    rw [utf8Decode.eq_def]
    simp [utf8DecodeOne, e1, e2, e3, e4]
    rw [show c / 64 * 64 + c % 64 = c from by omega]
  · have e1 : ¬ (224 + c / 4096 < 128) := by omega
    have e2 : ¬ (224 + c / 4096 < 192) := by omega
    have e3 : ¬ (224 + c / 4096 < 224) := by omega
    have e4 : 224 + c / 4096 < 240 := by omega
    have e5 : contByte (128 + c / 64 % 64) = true := by
      simp only [contByte, decide_eq_true_eq]; omega
    have e6 : contByte (128 + c % 64) = true := by
      simp only [contByte, decide_eq_true_eq]; omega
    have e7 : (224 + c / 4096 - 224) * 4096 + (128 + c / 64 % 64 - 128) * 64 +
        (128 + c % 64 - 128) = c := by omega
    simp only [List.cons_append, List.nil_append]
    rw [utf8Decode.eq_def]
    simp [utf8DecodeOne, e1, e2, e3, e4, e5, e6]
    rw [show c / 4096 * 4096 + c / 64 % 64 * 64 + c % 64 = c from by omega]
  · have e1 : ¬ (240 + c / 262144 < 128) := by omega
    have e2 : ¬ (240 + c / 262144 < 192) := by omega
    have e3 : ¬ (240 + c / 262144 < 224) := by omega
    have e4 : ¬ (240 + c / 262144 < 240) := by omega
    have e5 : 240 + c / 262144 < 248 := by omega
    have e6 : contByte (128 + c / 4096 % 64) = true := by
      simp only [contByte, decide_eq_true_eq]; omega
    have e7 : contByte (128 + c / 64 % 64) = true := by
      simp only [contByte, decide_eq_true_eq]; omega
    have e8 : contByte (128 + c % 64) = true := by
      simp only [contByte, decide_eq_true_eq]; omega
    have e9 : (240 + c / 262144 - 240) * 262144 +
        (128 + c / 4096 % 64 - 128) * 4096 + (128 + c / 64 % 64 - 128) * 64 +
        (128 + c % 64 - 128) = c := by omega
    simp only [List.cons_append, List.nil_append]
    rw [utf8Decode.eq_def]
    simp [utf8DecodeOne, e1, e2, e3, e4, e5, e6, e7, e8]
    rw [show c / 262144 * 262144 + c / 4096 % 64 * 4096 + c / 64 % 64 * 64 + c % 64 = c
      from by omega]

/-- UTF-8 decoding undoes the encoding of a whole string. -/
lemma utf8Decode_encode (s : List Nat) (h : ∀ c ∈ s, c < 1114112) :
    utf8Decode (utf8Encode s) = some s := by
  induction s with
  | nil => rw [show utf8Encode [] = [] from rfl, utf8Decode.eq_def]
  | cons c cs ih =>
    have hc : c < 1114112 := h c (by simp)
    have hx : utf8Encode (c :: cs) = utf8EncodeChar c ++ utf8Encode cs := by
      simp [utf8Encode]
    rw [hx, utf8Decode_encodeChar c hc, ih (fun x hx => h x (by simp [hx]))]
    rfl

/-- UTF-8 encodes valid codepoints into bytes. -/
lemma utf8EncodeChar_bytes_lt (c : Nat) (h : c < 1114112) :
    ∀ b ∈ utf8EncodeChar c, b < 256 := by
  unfold utf8EncodeChar
  split_ifs <;> intro b hb <;> simp at hb <;> omega

/-- Byte bound for a whole encoded string. -/
lemma utf8Encode_bytes_lt (s : List Nat) (h : ∀ c ∈ s, c < 1114112) :
    ∀ b ∈ utf8Encode s, b < 256 := by
  intro b hb
  simp only [utf8Encode, List.mem_flatten, List.mem_map] at hb
  obtain ⟨l, ⟨c, hc, rfl⟩, hbl⟩ := hb
  exact utf8EncodeChar_bytes_lt c (h c hc) b hbl

/-- `b64v` inverts `b64c` on 6-bit values. -/
lemma b64v_b64c (n : Nat) (h : n < 64) : b64v (b64c n) = some n := by
  have hall : ∀ i : Fin 64, b64v (b64c i.val) = some i.val := by decide
  exact hall ⟨n, h⟩

/-- No base64url character is a dot. -/
lemma b64c_ne_dot (n : Nat) : b64c n ≠ 46 := by
  have hall : ∀ i : Fin 64, b64c i.val ≠ 46 := by decide
  have hm : b64c n = b64c (n % 64) := by
    unfold b64c
    rw [show n % 64 % 64 = n % 64 from by omega]
  rw [hm]
  exact hall ⟨n % 64, by omega⟩

/-- Unfolding `b64e` on a one-byte tail. -/
lemma b64e_one (a : Nat) : b64e [a] = [b64c (a / 4), b64c (a % 4 * 16)] := by
  rw [b64e.eq_def]

/-- Unfolding `b64e` on a two-byte tail. -/
lemma b64e_two (a b : Nat) :
    b64e [a, b] =
      [b64c (a / 4), b64c (a % 4 * 16 + b / 16), b64c (b % 16 * 4)] := by
  rw [b64e.eq_def]

/-- Unfolding `b64e` on a three-byte chunk. -/
lemma b64e_chunk (a b c : Nat) (rest : List Nat) :
    b64e (a :: b :: c :: rest) =
      b64c (a / 4) :: b64c (a % 4 * 16 + b / 16) ::
      b64c (b % 16 * 4 + c / 64) :: b64c (c % 64) :: b64e rest := by
  rw [b64e.eq_def]

/-- No character of a base64url-encoded string is a dot. -/
lemma b64e_ne_dot : ∀ (l : List Nat), ∀ x ∈ b64e l, x ≠ 46
  | [] => by
    intro x hx
    rw [show b64e [] = [] from by rw [b64e.eq_def]] at hx
    simp at hx
  | [a] => by
    intro x hx
    rw [b64e_one] at hx
    simp only [List.mem_cons, List.not_mem_nil, or_false] at hx
    rcases hx with h | h <;> subst h <;> exact b64c_ne_dot _
  | [a, b] => by
    intro x hx
    rw [b64e_two] at hx
    simp only [List.mem_cons, List.not_mem_nil, or_false] at hx
    rcases hx with h | h | h <;> subst h <;> exact b64c_ne_dot _
  | a :: b :: c :: rest => by
    intro x hx
    rw [b64e_chunk] at hx
    simp only [List.mem_cons] at hx
    rcases hx with h | h | h | h | h
    · subst h; exact b64c_ne_dot _
    · subst h; exact b64c_ne_dot _
    · subst h; exact b64c_ne_dot _
    · subst h; exact b64c_ne_dot _
    · exact b64e_ne_dot rest x h

/-- Base64url decoding (with the re-padding convention of the source)
undoes the unpadded encoding of a byte string. -/
lemma b64d_b64e : ∀ (l : List Nat), (∀ b ∈ l, b < 256) →
    b64d (b64e l) = some l
  | [], _ => by rw [show b64e [] = [] from by rw [b64e.eq_def], b64d.eq_def]
  | [a], h => by
    have ha : a < 256 := h a (by simp)
    rw [b64e_one, b64d.eq_def]
    simp [b64v_b64c _ (show a / 4 < 64 by omega),
      b64v_b64c _ (show a % 4 * 16 < 64 by omega)]
    all_goals omega
  | [a, b], h => by
    have ha : a < 256 := h a (by simp)
    have hb : b < 256 := h b (by simp)
    rw [b64e_two, b64d.eq_def]
    simp [b64v_b64c _ (show a / 4 < 64 by omega),
      b64v_b64c _ (show a % 4 * 16 + b / 16 < 64 by omega),
      b64v_b64c _ (show b % 16 * 4 < 64 by omega)]
    constructor <;> omega
  | a :: b :: c :: rest, h => by
    have ha : a < 256 := h a (by simp)
    have hb : b < 256 := h b (by simp)
    have hc : c < 256 := h c (by simp)
    have ih := b64d_b64e rest (fun x hx => h x (by simp [hx]))
    rw [b64e_chunk, b64d.eq_def]
    simp [b64v_b64c _ (show a / 4 < 64 by omega),
      b64v_b64c _ (show a % 4 * 16 + b / 16 < 64 by omega),
      b64v_b64c _ (show b % 16 * 4 + c / 64 < 64 by omega),
      b64v_b64c _ (show c % 64 < 64 by omega), ih]
    refine ⟨by omega, by omega, by omega⟩

/-- One step of `splitDot`. -/
lemma splitDot_cons (c : Nat) (cs : List Nat) :
    splitDot (c :: cs) =
      (if c = 46 then [] :: splitDot cs
       else
         match splitDot cs with
         | h :: t => (c :: h) :: t
         | [] => [[c]]) := rfl

/-- `splitDot` always produces at least one part. -/
lemma splitDot_ne_nil (l : List Nat) : splitDot l ≠ [] := by
  induction l with
  | nil => simp [splitDot]
  | cons c cs ih =>
    rw [splitDot_cons]
    by_cases hc : c = 46
    · simp [hc]
    · cases hsp : splitDot cs <;> simp [hc, hsp]

/-- Splitting a dot-free string gives a single part. -/
lemma splitDot_nodot (l : List Nat) (h : ∀ c ∈ l, c ≠ 46) :
    splitDot l = [l] := by
  induction l with
  | nil => rfl
  | cons c cs ih =>
    rw [splitDot_cons, if_neg (h c (by simp)),
      ih (fun x hx => h x (by simp [hx]))]

/-- Splitting peels one dot-free prefix per dot. -/
lemma splitDot_append_dot (a r : List Nat) (ha : ∀ c ∈ a, c ≠ 46) :
    splitDot (a ++ 46 :: r) = a :: splitDot r := by
  induction a with
  | nil => rw [List.nil_append, splitDot_cons, if_pos rfl]
  | cons c a2 ih =>
    rw [List.cons_append, splitDot_cons, if_neg (ha c (by simp)),
      ih (fun x hx => ha x (by simp [hx]))]

/-- A list containing a dot splits at its first dot. -/
lemma exists_first_dot (s : List Nat) (h : 46 ∈ s) :
    ∃ u v, s = u ++ 46 :: v ∧ ∀ c ∈ u, c ≠ 46 := by
  induction s with
  | nil => simp at h
  | cons c s2 ih =>
    by_cases hc : c = 46
    · exact ⟨[], s2, by simp [hc], by simp⟩
    · have h2 : 46 ∈ s2 := by
        rcases List.mem_cons.mp h with h46 | h2
        · exact absurd h46.symm hc
        · exact h2
      obtain ⟨u, v, huv, hu⟩ := ih h2
      refine ⟨c :: u, v, by simp [huv], ?_⟩
      intro x hx
      rcases List.mem_cons.mp hx with rfl | hxu
      · exact hc
      · exact hu x hxu

/-- Splitting a well-formed token yields exactly its three parts. -/
lemma splitDot_token (B S : List Nat) (hB : ∀ c ∈ B, c ≠ 46)
    (hS : ∀ c ∈ S, c ≠ 46) :
    splitDot (v1Head ++ B ++ [46] ++ S) = [cps "v1", B, S] := by
  have hshape : v1Head ++ B ++ [46] ++ S =
      [118, 49] ++ 46 :: (B ++ 46 :: S) := by
    rw [show v1Head = [118, 49, 46] from by decide]
    simp
  rw [hshape, splitDot_append_dot _ _ (by decide),
    splitDot_append_dot _ _ hB, splitDot_nodot S hS,
    show cps "v1" = [118, 49] from by decide]

/-- `hexDigit` adds at most 87. -/
lemma hexDigit_lt_add (n : Nat) : hexDigit n < n + 128 := by
  unfold hexDigit
  split_ifs <;> omega

/-- Every character `json.dumps` escaping emits is a valid codepoint. -/
lemma jsonEscapeChar_lt (c : Nat) (h : c < 1114112) :
    ∀ x ∈ jsonEscapeChar c, x < 1114112 := by
  have hh1 : hexDigit (c / 16) < c / 16 + 128 := hexDigit_lt_add _
  have hh2 : hexDigit (c % 16) < c % 16 + 128 := hexDigit_lt_add _
  intro x hx
  unfold jsonEscapeChar at hx
  split_ifs at hx <;> simp at hx <;> omega

/-- Codepoint bound for a whole escaped string. -/
lemma jsonEscape_chars_lt (s : List Nat) (h : ∀ c ∈ s, c < 1114112) :
    ∀ x ∈ jsonEscape s, x < 1114112 := by
  intro x hx
  simp only [jsonEscape, List.mem_flatten, List.mem_map] at hx
  obtain ⟨l, ⟨c, hc, rfl⟩, hxl⟩ := hx
  exact jsonEscapeChar_lt c (h c hc) x hxl

/-- Codepoint bound for the serialized payload. -/
lemma jsonDumpsPayload_chars_lt (r j : List Nat)
    (hr : ∀ c ∈ r, c < 1114112) (hj : ∀ c ∈ j, c < 1114112) :
    ∀ c ∈ jsonDumpsPayload r j, c < 1114112 := by
  have hkey1 : ∀ c ∈ jsonEscape (cps "resume_id"), c < 1114112 := by decide
  have hkey2 : ∀ c ∈ jsonEscape (cps "job_id"), c < 1114112 := by decide
  intro c hc
  unfold jsonDumpsPayload quoteJson at hc
  simp only [List.mem_append, List.mem_cons, List.not_mem_nil, or_false] at hc
  casesm* _ ∨ _
  all_goals first
    | omega
    | exact hkey1 c (by assumption)
    | exact hkey2 c (by assumption)
    | exact jsonEscape_chars_lt r hr c (by assumption)
    | exact jsonEscape_chars_lt j hj c (by assumption)

/-- `json.loads` recovers the payload serialized by `json.dumps`. -/
lemma jsonLoadsPayload_dumps (r j : List Nat) :
    jsonLoadsPayload (jsonDumpsPayload r j) = some (r, j) := by
  have hkey1 : jsonEscape (cps "resume_id") = cps "resume_id" := by decide
  have hkey2 : jsonEscape (cps "job_id") = cps "job_id" := by decide
  have hshape : jsonDumpsPayload r j =
      ([123, 34] ++ cps "resume_id" ++ [34, 58, 34]) ++
        (jsonEscape r ++ 34 ::
          (([44, 34] ++ cps "job_id" ++ [34, 58, 34]) ++
            (jsonEscape j ++ 34 :: [125]))) := by
    unfold jsonDumpsPayload quoteJson
    rw [hkey1, hkey2]
    simp
  rw [hshape]
  simp only [jsonLoadsPayload, parseLiteral_append, parseJString_escape,
    Option.bind_eq_bind, Option.some_bind,
    show parseLiteral [125] [125] = some [] from rfl]
  simp

/-! ## C1 — the codec claim -/

/-- C1: the token codec round-trips — decoding an encoded token returns
exactly the ids it was built from — and rejects every tampering the claim
names: any change to the signature part (byte flips included), any version
part other than `"v1"`, and any token that does not split into exactly
three dot-separated parts.  The HMAC (with its process-level secret) enters
as an opaque function `hmacFn`; the ids range over arbitrary strings of
Unicode codepoints. -/
theorem token_codec_roundtrip_and_tamper (hmacFn : List Nat → List Nat)
    (r j : List Nat) (hr : ∀ c ∈ r, c < 1114112)
    (hj : ∀ c ∈ j, c < 1114112) :
    decodeMatchingId hmacFn (generateMatchingId hmacFn r j) = some (r, j) ∧
    (∀ sig2, ¬ sig2 = sigPart hmacFn r j →
      decodeMatchingId hmacFn
        (v1Head ++ payloadB64Part r j ++ [46] ++ sig2) = none) ∧
    (∀ t p a b, splitDot t = [p, a, b] → ¬ p = cps "v1" →
      decodeMatchingId hmacFn t = none) ∧
    (∀ t, ¬ (splitDot t).length = 3 → decodeMatchingId hmacFn t = none) := by
  have hBnd : ∀ c ∈ payloadB64Part r j, c ≠ 46 := b64e_ne_dot _
  have hSnd : ∀ c ∈ sigPart hmacFn r j, c ≠ 46 := b64e_ne_dot _
  have hbytes : ∀ b ∈ utf8Encode (jsonDumpsPayload r j), b < 256 :=
    utf8Encode_bytes_lt _ (jsonDumpsPayload_chars_lt r j hr hj)
  refine ⟨?_, ?_, ?_, ?_⟩
  · unfold generateMatchingId decodeMatchingId
    rw [splitDot_token _ _ hBnd hSnd]
    dsimp only
    rw [if_neg (not_not_intro rfl)]
    rw [show sigPart hmacFn r j =
        b64e (hmacFn (v1Head ++ payloadB64Part r j)) from rfl,
      if_neg (not_not_intro rfl)]
    rw [show payloadB64Part r j = b64e (utf8Encode (jsonDumpsPayload r j))
      from rfl]
    rw [b64d_b64e _ hbytes]
    simp only [Option.bind_eq_bind, Option.some_bind]
    rw [utf8Decode_encode _ (jsonDumpsPayload_chars_lt r j hr hj)]
    simp only [Option.some_bind]
    exact jsonLoadsPayload_dumps r j
  · intro sig2 hne
    by_cases hdot : 46 ∈ sig2
    · obtain ⟨u, v, rfl, hu⟩ := exists_first_dot sig2 hdot
      unfold decodeMatchingId
      have hshape : v1Head ++ payloadB64Part r j ++ [46] ++ (u ++ 46 :: v) =
          [118, 49] ++ 46 :: (payloadB64Part r j ++ 46 :: (u ++ 46 :: v)) := by
        rw [show v1Head = [118, 49, 46] from by decide]
        simp
      rw [hshape, splitDot_append_dot _ _ (by decide),
        splitDot_append_dot _ _ hBnd, splitDot_append_dot _ _ hu]
      obtain ⟨h0, t0, hvv⟩ := List.exists_cons_of_ne_nil (splitDot_ne_nil v)
      rw [hvv]
    · have hnd : ∀ c ∈ sig2, c ≠ 46 := fun c hc h46 => hdot (h46 ▸ hc)
      unfold decodeMatchingId
      rw [splitDot_token _ _ hBnd hnd]
      dsimp only
      rw [if_neg (not_not_intro rfl)]
      rw [show b64e (hmacFn (v1Head ++ payloadB64Part r j)) =
          sigPart hmacFn r j from rfl,
        if_pos (fun he => hne (he.symm))]
  · intro t p a b hsp hp
    unfold decodeMatchingId
    rw [hsp]
    dsimp only
    rw [if_pos hp]
  · intro t hlen
    unfold decodeMatchingId
    rcases hsp : splitDot t with _ | ⟨a, _ | ⟨b, _ | ⟨c, _ | ⟨d, rest⟩⟩⟩⟩
    · rfl
    · rfl
    · rfl
    · rw [hsp] at hlen
      simp at hlen
    · rfl

/-- Witness for C1: concrete ids, a constant stand-in digest function, and
a concrete wrong signature. -/
theorem token_codec_witness :
    decodeMatchingId (fun _ => [0])
        (generateMatchingId (fun _ => [0]) (cps "r-1") (cps "j-2")) =
      some (cps "r-1", cps "j-2") ∧
    decodeMatchingId (fun _ => [0])
      (v1Head ++ payloadB64Part (cps "r-1") (cps "j-2") ++ [46] ++ cps "xx") =
      none := by
  have h := token_codec_roundtrip_and_tamper (fun _ => [0]) (cps "r-1")
    (cps "j-2") (by decide) (by decide)
  exact ⟨h.1, h.2.1 (cps "xx") (by decide)⟩

end JDMatch
